import Mathlib

/-!
Verification of the state-synchronization core of a WebRTC peer-to-peer game.

The development shallowly embeds the TypeScript sources:
* `Entity` and `Entity.updateState` (model/Entity.ts),
* the shared movement integrator `AbstractWorld.moveEntities` (model/AbstractWorld.ts),
* the client reconciliation `ClientWorld.handleState` (model/ClientWorld.ts),
* the server serialization `ServerWorld.createState` and input handler
  `ServerWorld.clientStateReceived` (model/ServerWorld.ts),
* the per-peer channel status machines of the server-side `WebChannelClient`
  (transport/WebChannelServer.ts) and the client-side `WebChannel`
  (transport/WebChannel.ts), and the roster operation
  `WebChannelServer.removeClient`.

Conventions of the embedding:
* JavaScript numbers that only ever hold pixel coordinates or tick steps are
  modelled as rationals (all operations performed on them in the source are
  exact on rationals); ids, types, sequence words are naturals.
* A `Uint16Array` is a `List Nat` whose entries are below 65536; an
  out-of-range JavaScript read yields `undefined`, which the source only ever
  feeds into `&` (where it behaves as 0) — the model uses default 0 and the
  theorems that depend on record fields restrict to well-formed lengths.
* JavaScript object identity is rendered by value equality; entity ids are
  unique in every reachable world (the server allocates them from a counter),
  and clients in the roster are distinct objects, so the theorems that need
  it carry the corresponding `Nodup` hypothesis.
-/

attribute [local semireducible] Rat.add Rat.sub Rat.mul Rat.inv

/-- Control bit for left, `LEFT` in AbstractWorld.ts. -/
def LEFT : Nat := 1
/-- Control bit for right. -/
def RIGHT : Nat := 2
/-- Control bit for up. -/
def UP : Nat := 4
/-- Control bit for down. -/
def DOWN : Nat := 8

/-- `SERVER_UPDATES_PER_SECOND` in AbstractWorld.ts. -/
def SERVER_UPDATES_PER_SECOND : ℚ := 20
/-- `CLIENT_UPDATES_PER_SECOND` in AbstractWorld.ts. -/
def CLIENT_UPDATES_PER_SECOND : ℚ := 40
/-- `MOVE_SPEED` in AbstractWorld.ts. -/
def MOVE_SPEED : ℚ := 8

/-- An entity of the game world (model/Entity.ts). -/
structure Entity where
  id : Nat
  x : ℚ
  y : ℚ
  type : Nat
  faceLeft : Bool := true
  moving : Bool := false
  left : Bool := false
  right : Bool := false
  up : Bool := false
  down : Bool := false
deriving DecidableEq, Repr

/-- `Entity.updateState` from model/Entity.ts: overwrite position, type and
the four input flags; `faceLeft` and `moving` are untouched. -/
def Entity.updateState (e : Entity) (x y : ℚ) (type : Nat)
    (left right up down : Bool) : Entity :=
  { e with x := x, y := y, type := type,
           left := left, right := right, up := up, down := down }

/-- One iteration of the loop body of `AbstractWorld.moveEntities`
(model/AbstractWorld.ts, lines 48-86), for a single entity.  `map` is the
collision map's `blockedAt`, `moveStep = MOVE_SPEED * stepSize`. -/
def moveEntity (map : ℚ → ℚ → Bool) (moveStep : ℚ) (entity : Entity) :
    Entity :=
  let ny1 := if entity.up then entity.y - moveStep else entity.y
  let ny := if entity.down then ny1 + moveStep else ny1
  let nx1 := if entity.left then entity.x - moveStep else entity.x
  let nx := if entity.right then nx1 + moveStep else nx1
  let f1 := if entity.x < nx then false else entity.faceLeft
  let faceLeft := if nx < entity.x then true else f1
  let moving := decide (entity.x ≠ nx) || decide (entity.y ≠ ny)
  let e := { entity with faceLeft := faceLeft, moving := moving }
  if moving && !(map nx ny) then { e with x := nx, y := ny } else e

/-- `AbstractWorld.moveEntities`: move every entity except the excluded one
(the source compares `entity === exclude`; entities are compared by value
here, which agrees with identity on the duplicate-free worlds the program
builds). -/
def moveEntities (map : ℚ → ℚ → Bool) (stepSize : ℚ)
    (exclude : Option Entity) (entities : List Entity) : List Entity :=
  let moveStep := MOVE_SPEED * stepSize
  entities.map (fun entity =>
    if exclude = some entity then entity else moveEntity map moveStep entity)

/-- Interpret a 32-bit pattern as a JavaScript `Int32` value. -/
def asInt32 (n : Nat) : ℤ :=
  if n % 4294967296 < 2147483648 then ((n % 4294967296 : Nat) : ℤ)
  else ((n % 4294967296 : Nat) : ℤ) - 4294967296

/-- The sequence-number decode of `ClientWorld.handleState`:
`state[0] | ((state[1] << 16) & 0xFFFF0000)` with JavaScript 32-bit
semantics (`<<`, `&` and `|` act on `Int32` bit patterns). -/
def decodeSeq (w0 w1 : Nat) : ℤ :=
  asInt32 (Nat.lor (w0 % 4294967296)
    (Nat.land ((w1 * 65536) % 4294967296) 0xFFFF0000))

/-- JavaScript `(controls & bit) !== 0`. -/
def hasBit (controls bit : Nat) : Bool := Nat.land controls bit ≠ 0

/-- One entity record of a snapshot: id, x, y, type, controls. -/
structure SnapRecord where
  id : Nat
  x : Nat
  y : Nat
  type : Nat
  controls : Nat
deriving DecidableEq, Repr

/-- The record-reading loop of `ClientWorld.handleState`
(`while (index < state.length)` …): read five words per record starting at
word offset 2; a read past the end of the buffer yields 0 (JavaScript yields
`undefined`, which the source only feeds into `&`, behaving as 0). -/
def parseRecords : List Nat → List SnapRecord
  | [] => []
  | [id] => [⟨id, 0, 0, 0, 0⟩]
  | [id, x] => [⟨id, x, 0, 0, 0⟩]
  | [id, x, y] => [⟨id, x, y, 0, 0⟩]
  | [id, x, y, type] => [⟨id, x, y, type, 0⟩]
  | id :: x :: y :: type :: controls :: rest =>
      ⟨id, x, y, type, controls⟩ :: parseRecords rest

/-- The game world from the client point of view (model/ClientWorld.ts);
the collision map is passed to the operations explicitly. -/
structure ClientWorld where
  entities : List Entity
  myId : Nat := 0
  lastSequenceNumber : ℤ := 0
  localSequenceNumber : ℚ := 0
deriving DecidableEq, Repr

/-- `ClientWorld.getLocalEntity`: the first entity whose id is `myId`. -/
def ClientWorld.getLocalEntity (w : ClientWorld) : Option Entity :=
  w.entities.find? (fun entity => entity.id == w.myId)

/-- `entity.updateState(x, y, type, left, right, up, down)` with the four
flags decoded from the record's control bits, as done by the record loop of
`ClientWorld.handleState`. -/
def recordUpdate (e : Entity) (r : SnapRecord) : Entity :=
  e.updateState r.x r.y r.type (hasBit r.controls LEFT)
    (hasBit r.controls RIGHT) (hasBit r.controls UP) (hasBit r.controls DOWN)

/-- The body of the record loop of `ClientWorld.handleState` for one record:
find or create the entity by id (creation pushes `new Entity(id, 0, 0, 0)`
at the end of the list), then apply the record unless the entity is the
locally-controlled one and was not freshly created (`getLocalEntity` is
consulted after the push, exactly as in the source). -/
def applyRecord (myId : Nat) (entities : List Entity) (r : SnapRecord) :
    List Entity :=
  match entities.find? (fun e => e.id == r.id) with
  | some entity =>
      let localEntity := entities.find? (fun e => e.id == myId)
      if localEntity ≠ some entity then
        entities.map (fun e =>
          if e.id == r.id then recordUpdate entity r else e)
      else entities
  | none =>
      -- the source pushes the fresh entity and then updates it in place;
      -- since no existing entity carries this id, that is an append of the
      -- already-updated entity
      entities ++
        [recordUpdate { id := r.id, x := 0, y := 0, type := 0 } r]

/-- The whole record loop of `ClientWorld.handleState`. -/
def applyRecords (myId : Nat) (entities : List Entity)
    (records : List SnapRecord) : List Entity :=
  records.foldl (applyRecord myId) entities

/-- The client-side prediction replay at the end of
`ClientWorld.handleState`: run `moveEntities` excluding the local entity
(`getLocalEntity` recomputed each iteration, as in the source) a given
number of times; the client's `stepSize` is
`SERVER_UPDATES_PER_SECOND / CLIENT_UPDATES_PER_SECOND`. -/
def ClientWorld.replayAhead (map : ℚ → ℚ → Bool) (w : ClientWorld) :
    Nat → ClientWorld
  | 0 => w
  | n + 1 =>
      let moved := moveEntities map
        (SERVER_UPDATES_PER_SECOND / CLIENT_UPDATES_PER_SECOND)
        w.getLocalEntity w.entities
      ClientWorld.replayAhead map { w with entities := moved } n

/-- `ClientWorld.handleState` (model/ClientWorld.ts, lines 258-339): decode
the sequence number; drop the whole snapshot when it is not strictly
greater than the last accepted one; otherwise apply every record, remove
every entity not mentioned, and replay prediction steps (or clamp the local
time base). -/
def ClientWorld.handleState (map : ℚ → ℚ → Bool) (state : List Nat)
    (w : ClientWorld) : ClientWorld :=
  let seq := decodeSeq (state.getD 0 0) (state.getD 1 0)
  if seq ≤ w.lastSequenceNumber then w
  else
    let records := parseRecords (state.drop 2)
    let entities := applyRecords w.myId w.entities records
    let mentioned := records.map SnapRecord.id
    let entities := entities.filter (fun e => mentioned.contains e.id)
    let w2 : ClientWorld :=
      { w with lastSequenceNumber := seq, entities := entities }
    let step := SERVER_UPDATES_PER_SECOND / CLIENT_UPDATES_PER_SECOND
    let stepsAhead : ℤ := Rat.floor ((w2.localSequenceNumber - (seq : ℚ)) / step)
    if 0 < stepsAhead then ClientWorld.replayAhead map w2 stepsAhead.toNat
    else { w2 with localSequenceNumber := (seq : ℚ) }

/-- JavaScript `ToUint16` on a natural. -/
def toUint16 (n : Nat) : Nat := n % 65536

/-- JavaScript `ToUint16` on a rational number: truncate toward zero, then
reduce modulo 2^16. -/
def ratToUint16 (q : ℚ) : Nat := ((q.num / (q.den : ℤ)) % 65536).toNat

/-- The control-bit encoding shared by `ServerWorld.createState` and
`ClientWorld.sendState`. -/
def controlsOf (e : Entity) : Nat :=
  (if e.left then LEFT else 0) + (if e.right then RIGHT else 0) +
    (if e.up then UP else 0) + (if e.down then DOWN else 0)

/-- `ServerWorld.createState` (model/ServerWorld.ts, lines 96-116): one word
for the sequence number followed by five words per entity, the whole array
stored as a `Uint16Array`. -/
def ServerWorld.createState (sequence : Nat) (entities : List Entity) :
    List Nat :=
  toUint16 sequence ::
    entities.flatMap (fun e =>
      [toUint16 e.id, ratToUint16 e.x, ratToUint16 e.y, toUint16 e.type,
        toUint16 (controlsOf e)])

/-- The game world from the server point of view (model/ServerWorld.ts).
`clientToEntity` maps a client id to the id of its bound entity (the source
stores the entity object itself; server entity ids are unique, so the id is
a faithful handle). -/
structure ServerWorld where
  entities : List Entity
  clientToEntity : List (Nat × Nat)
  nextEntityId : Nat := 1
  sequenceNumber : Nat := 0
deriving DecidableEq, Repr

/-- `ServerWorld.clientStateReceived` (model/ServerWorld.ts, lines 118-135):
look up the entity bound to the client; if there is one and the reported
position is not blocked, overwrite its position and input flags (`type` is
passed back unchanged); otherwise do nothing. -/
def ServerWorld.clientStateReceived (map : ℚ → ℚ → Bool) (clientId : Nat)
    (buffer : List Nat) (w : ServerWorld) : ServerWorld :=
  match w.clientToEntity.lookup clientId with
  | none => w
  | some eid =>
      match w.entities.find? (fun e => e.id == eid) with
      | none => w
      | some entity =>
          if !(map (buffer.getD 0 0) (buffer.getD 1 0)) then
            { w with entities := w.entities.map (fun e =>
                if e.id == eid then
                  entity.updateState (buffer.getD 0 0) (buffer.getD 1 0)
                    entity.type (hasBit (buffer.getD 2 0) LEFT)
                    (hasBit (buffer.getD 2 0) RIGHT)
                    (hasBit (buffer.getD 2 0) UP)
                    (hasBit (buffer.getD 2 0) DOWN)
                else e) }
          else w

/-- `WebChannelServer.removeClient` (transport/WebChannelServer.ts, lines
346-350): `if (includes) splice(indexOf, 1)`.  Clients are rendered as
their (distinct) numeric ids. -/
def WebChannelServer.removeClient (clients : List Nat) (c : Nat) :
    List Nat :=
  if clients.contains c then clients.eraseIdx (clients.indexOf c)
  else clients

/-- Channel status events seen by the server-side per-peer transport
`WebChannelClient`: a channel's `onopen` or `onclose` firing with the
channel in the corresponding `readyState`. -/
inductive ServerChanEvent where
  | openOrdered
  | closeOrdered
  | openUnordered
  | closeUnordered
deriving DecidableEq, Repr

/-- Observable state of one server-side `WebChannelClient`
(transport/WebChannelServer.ts): the two open flags, whether each channel
reference is still set (both are created in the constructor), and how many
times the server's `onConnect` / `onDisconnect` callbacks have fired for
this peer. -/
structure ServerPeer where
  orderedChannelConnected : Bool := false
  unorderedChannelConnected : Bool := false
  orderedChannel : Bool := true
  unorderedChannel : Bool := true
  connectCount : Nat := 0
  disconnectCount : Nat := 0
deriving DecidableEq, Repr

/-- `WebChannelClient.connected`: both open flags are true. -/
def ServerPeer.connected (s : ServerPeer) : Bool :=
  s.unorderedChannelConnected && s.orderedChannelConnected

/-- `handleOrderedStatusChange` / `handleUnorderedStatusChange` of
`WebChannelClient` (lines 160-212).  Note the source's close branch of the
ordered handler clears `unorderedChannelConnected`, not the ordered flag —
the model reproduces that exactly. -/
def ServerPeer.step (s : ServerPeer) : ServerChanEvent → ServerPeer
  | .openOrdered =>
      if s.orderedChannel then
        let s1 := { s with orderedChannelConnected := true }
        if s1.connected then { s1 with connectCount := s1.connectCount + 1 }
        else s1
      else s
  | .closeOrdered =>
      if s.orderedChannel then
        let s1 :=
          if s.connected then
            { s with disconnectCount := s.disconnectCount + 1 }
          else s
        { s1 with unorderedChannelConnected := false, orderedChannel := false }
      else s
  | .openUnordered =>
      if s.unorderedChannel then
        let s1 := { s with unorderedChannelConnected := true }
        if s1.connected then { s1 with connectCount := s1.connectCount + 1 }
        else s1
      else s
  | .closeUnordered =>
      if s.unorderedChannel then
        let s1 :=
          if s.connected then
            { s with disconnectCount := s.disconnectCount + 1 }
          else s
        { s1 with unorderedChannelConnected := false,
                  unorderedChannel := false }
      else s

/-- Run a server-side peer through a sequence of channel status events. -/
def ServerPeer.run (s : ServerPeer) (events : List ServerChanEvent) :
    ServerPeer :=
  events.foldl ServerPeer.step s

/-- Channel events seen by the client-side `WebChannel`
(transport/WebChannel.ts): `ondatachannel` delivering a channel, and each
channel's `onopen` / `onclose`. -/
inductive ClientChanEvent where
  | receiveOrdered
  | receiveUnordered
  | openOrdered
  | closeOrdered
  | openUnordered
  | closeUnordered
deriving DecidableEq, Repr

/-- Observable state of the client-side `WebChannel`: whether each channel
reference has been received (its `connected` getter tests exactly these two
references, not any open state), and the callback fire counts. -/
structure ClientChannel where
  orderedChannel : Bool := false
  unorderedChannel : Bool := false
  connectCount : Nat := 0
  disconnectCount : Nat := 0
deriving DecidableEq, Repr

/-- `WebChannel.connected`: `!!this.orderedChannel && !!this.unorderedChannel`. -/
def ClientChannel.connected (s : ClientChannel) : Bool :=
  s.orderedChannel && s.unorderedChannel

/-- `receiveOrderedChannel` / `receiveUnorderedChannel` and
`handleOrderedReceiveChannelStatusChange` /
`handleUnorderedReceiveChannelStatusChange` of `WebChannel`
(lines 139-247), assuming the `onConnect` / `onDisconnect` handlers are
registered. -/
def ClientChannel.step (s : ClientChannel) : ClientChanEvent → ClientChannel
  | .receiveOrdered => { s with orderedChannel := true }
  | .receiveUnordered => { s with unorderedChannel := true }
  | .openOrdered =>
      if s.orderedChannel then
        if s.connected then { s with connectCount := s.connectCount + 1 }
        else s
      else s
  | .closeOrdered =>
      if s.orderedChannel then
        let s1 :=
          if s.connected then
            { s with disconnectCount := s.disconnectCount + 1 }
          else s
        { s1 with orderedChannel := false }
      else s
  | .openUnordered =>
      if s.unorderedChannel then
        if s.connected then { s with connectCount := s.connectCount + 1 }
        else s
      else s
  | .closeUnordered =>
      if s.unorderedChannel then
        let s1 :=
          if s.connected then
            { s with disconnectCount := s.disconnectCount + 1 }
          else s
        { s1 with unorderedChannel := false }
      else s

/-- Run the client-side channel through a sequence of events. -/
def ClientChannel.run (s : ClientChannel) (events : List ClientChanEvent) :
    ClientChannel :=
  events.foldl ClientChannel.step s

/-- Fuelled interleaving helper; the fuel is at least the total length, so
the first branch is never reached on the intended inputs. -/
def interleavingsAux : Nat → List α → List α → List (List α)
  | 0, xs, ys => [xs ++ ys]
  | _ + 1, [], ys => [ys]
  | _ + 1, x :: xs, [] => [x :: xs]
  | n + 1, x :: xs, y :: ys =>
      (interleavingsAux n xs (y :: ys)).map (x :: ·) ++
        (interleavingsAux n (x :: xs) ys).map (y :: ·)

/-- All interleavings of two event sequences (each channel's events keep
their relative order). -/
def interleavings (xs ys : List α) : List (List α) :=
  interleavingsAux (xs.length + ys.length) xs ys

/-- The event sequences one RTC data channel can emit: it opens at most
once, may close after opening, or may close without ever opening. -/
def orderedTraces : List (List ServerChanEvent) :=
  [[], [.openOrdered], [.openOrdered, .closeOrdered], [.closeOrdered]]

/-- Same for the unordered channel. -/
def unorderedTraces : List (List ServerChanEvent) :=
  [[], [.openUnordered], [.openUnordered, .closeUnordered],
    [.closeUnordered]]

/-- The prediction replay never touches the last accepted sequence number. -/
theorem replayAhead_lastSeq (map : ℚ → ℚ → Bool) :
    ∀ (n : Nat) (w : ClientWorld),
      (ClientWorld.replayAhead map w n).lastSequenceNumber =
        w.lastSequenceNumber := by
  intro n
  induction n with
  | zero => intro w; rfl
  | succ n ih => intro w; exact ih _

/-- Claim C1 counterexample: with the last accepted sequence number at the
ceiling 50000, a snapshot whose sequence number has wrapped around to 5 is
discarded unchanged by `handleState` — it is not treated as logically newer
and applied, contrary to the claim. -/
theorem wraparound_snapshot_discarded :
    decodeSeq 5 0 = 5 ∧
    ClientWorld.handleState (fun _ _ => false) [5, 0, 7, 100, 100, 2, 0]
        { entities := [], myId := 0, lastSequenceNumber := 50000,
          localSequenceNumber := 0 } =
      { entities := [], myId := 0, lastSequenceNumber := 50000,
        localSequenceNumber := 0 } := by
  decide

/-- Claim C1 (amended): `handleState` accepts a snapshot exactly when its
decoded sequence number is numerically greater than the last accepted one;
there is no wraparound tolerance.  A non-greater sequence number means the
whole snapshot is discarded, and a greater one is recorded as the new last
accepted number. -/
theorem handleState_accepts_iff_numerically_greater
    (map : ℚ → ℚ → Bool) (state : List Nat) (w : ClientWorld) :
    (decodeSeq (state.getD 0 0) (state.getD 1 0) ≤ w.lastSequenceNumber →
      ClientWorld.handleState map state w = w) ∧
    (w.lastSequenceNumber < decodeSeq (state.getD 0 0) (state.getD 1 0) →
      (ClientWorld.handleState map state w).lastSequenceNumber =
        decodeSeq (state.getD 0 0) (state.getD 1 0)) := by
  constructor
  · intro h
    simp only [ClientWorld.handleState]
    rw [if_pos h]
  · intro h
    simp only [ClientWorld.handleState]
    rw [if_neg (not_le.mpr h)]
    split
    · rw [replayAhead_lastSeq]
    · rfl

/-- Witness for the amended claim C1 at a concrete input. -/
theorem handleState_accepts_iff_numerically_greater_witness :
    (10 : ℤ) < decodeSeq 12 0 ∧
    (ClientWorld.handleState (fun _ _ => false) [12, 0]
        { entities := [], myId := 0, lastSequenceNumber := 10,
          localSequenceNumber := 0 }).lastSequenceNumber = decodeSeq 12 0 :=
  ⟨by decide,
    (handleState_accepts_iff_numerically_greater (fun _ _ => false) [12, 0]
      { entities := [], myId := 0, lastSequenceNumber := 10,
        localSequenceNumber := 0 }).2 (by decide)⟩

/-- Claim C5: a snapshot whose decoded sequence number is not strictly
greater than the last accepted one leaves the whole client world unchanged,
and applying the same snapshot twice equals applying it once (the second
application is dropped as stale). -/
theorem handleState_stale_dropped_atomically
    (map : ℚ → ℚ → Bool) (state : List Nat) (w : ClientWorld) :
    (decodeSeq (state.getD 0 0) (state.getD 1 0) ≤ w.lastSequenceNumber →
      ClientWorld.handleState map state w = w) ∧
    ClientWorld.handleState map state (ClientWorld.handleState map state w) =
      ClientWorld.handleState map state w := by
  have hdrop : ∀ v : ClientWorld,
      decodeSeq (state.getD 0 0) (state.getD 1 0) ≤ v.lastSequenceNumber →
      ClientWorld.handleState map state v = v := by
    intro v h
    simp only [ClientWorld.handleState]
    rw [if_pos h]
  refine ⟨hdrop w, ?_⟩
  by_cases h :
      decodeSeq (state.getD 0 0) (state.getD 1 0) ≤ w.lastSequenceNumber
  · rw [hdrop w h]
    exact hdrop w h
  · apply hdrop
    have hlast : (ClientWorld.handleState map state w).lastSequenceNumber =
        decodeSeq (state.getD 0 0) (state.getD 1 0) := by
      simp only [ClientWorld.handleState]
      rw [if_neg h]
      split
      · rw [replayAhead_lastSeq]
      · rfl
    rw [hlast]

/-- Witness for claim C5: scenario D — after accepting `seq = 10`, the
snapshot `seq = 9` is fully ignored. -/
theorem handleState_stale_dropped_atomically_witness :
    ClientWorld.handleState (fun _ _ => false) [9, 0, 7, 55, 55, 2, 1]
        { entities := [{ id := 7, x := 100, y := 100, type := 2 }],
          myId := 3, lastSequenceNumber := 10, localSequenceNumber := 10 } =
      { entities := [{ id := 7, x := 100, y := 100, type := 2 }],
        myId := 3, lastSequenceNumber := 10, localSequenceNumber := 10 } :=
  (handleState_stale_dropped_atomically (fun _ _ => false)
    [9, 0, 7, 55, 55, 2, 1]
    { entities := [{ id := 7, x := 100, y := 100, type := 2 }],
      myId := 3, lastSequenceNumber := 10, localSequenceNumber := 10 }).1
    (by decide)

/-- Claim C2: the server writes the sequence number as a single 16-bit word
(`[sequence][id, x, y, type, controls]…`) while the client decodes two words
(`[seqLow, seqHigh, …]`) and starts reading entity records at word offset 2.
At sequence 1 with one entity `{id 7, (100,100), type 2, controls 0}` the
client decodes sequence `1 | (7 <<< 16) = 458753` instead of 1, and parses
the record one word off, creating an entity with id 100 (the x field)
instead of id 7. -/
theorem createState_handleState_layout_mismatch :
    ServerWorld.createState 1 [{ id := 7, x := 100, y := 100, type := 2 }] =
      [1, 7, 100, 100, 2, 0] ∧
    decodeSeq 1 7 = 458753 ∧
    (ClientWorld.handleState (fun _ _ => false)
        (ServerWorld.createState 1
          [{ id := 7, x := 100, y := 100, type := 2 }])
        { entities := [] }).entities.map Entity.id = [100] := by
  decide

/-- Claim C3 counterexample: on the client side, `WebChannel.connected`
tests only that both channel objects have been received, not that they are
open.  When both channels are delivered by `ondatachannel` before either
opens — the normal case, since the server creates both before offering —
the `onConnect` callback fires at the first channel-open event (before the
unordered channel has opened) and again at the second: twice for one
connection. -/
theorem client_connect_fires_twice :
    (ClientChannel.run {} [ClientChanEvent.receiveOrdered,
        ClientChanEvent.receiveUnordered, ClientChanEvent.openOrdered,
        ClientChanEvent.openUnordered]).connectCount = 2 ∧
    (ClientChannel.run {} [ClientChanEvent.receiveOrdered,
        ClientChanEvent.receiveUnordered,
        ClientChanEvent.openOrdered]).connectCount = 1 := by
  decide

/-- Claim C3 (amended): on the server side (`WebChannelClient`, which keeps
a per-channel open flag), for every interleaving of realistic channel
traces — each channel opens at most once and close is terminal — the
connect callback fires at most once and the disconnect callback fires at
most once, and when both channels open (and nothing closes) the connect
callback fires exactly once, at the second open.  The client-side
`WebChannel` does not enjoy this: see the counterexample. -/
theorem server_connect_reported_once :
    ∀ tO ∈ orderedTraces, ∀ tU ∈ unorderedTraces,
      ∀ l ∈ interleavings tO tU,
        (ServerPeer.run {} l).connectCount ≤ 1 ∧
        (ServerPeer.run {} l).disconnectCount ≤ 1 ∧
        (tO = [ServerChanEvent.openOrdered] →
          tU = [ServerChanEvent.openUnordered] →
          (ServerPeer.run {} l).connectCount = 1) := by
  decide

/-- Witness for the amended claim C3 at a concrete interleaving. -/
theorem server_connect_reported_once_witness :
    (ServerPeer.run {} [ServerChanEvent.openOrdered,
        ServerChanEvent.openUnordered]).connectCount = 1 :=
  (server_connect_reported_once [ServerChanEvent.openOrdered] (by decide)
    [ServerChanEvent.openUnordered] (by decide)
    [ServerChanEvent.openOrdered, ServerChanEvent.openUnordered]
    (by decide)).2.2 rfl rfl

/-- `removeClient` is `List.erase`: the source's
`splice(indexOf(client), 1)` guarded by `includes(client)` removes the
first occurrence when present. -/
theorem removeClient_eq_erase (l : List Nat) (c : Nat) :
    WebChannelServer.removeClient l c = l.erase c := by
  by_cases h : l.contains c
  · simp only [WebChannelServer.removeClient, if_pos h,
      List.eraseIdx_indexOf_eq_erase]
  · simp only [WebChannelServer.removeClient, if_neg h]
    have : c ∉ l := by simpa using h
    exact (List.erase_of_not_mem this).symm

/-- Claim C9: removing an absent client from the roster is a no-op, and on
a duplicate-free roster (the only kind the server builds — every
`connectionRequest` pushes a fresh client object) removing the same client
twice equals removing it once. -/
theorem removeClient_idempotent (clients : List Nat) (c : Nat) :
    (c ∉ clients → WebChannelServer.removeClient clients c = clients) ∧
    (clients.Nodup →
      WebChannelServer.removeClient
          (WebChannelServer.removeClient clients c) c =
        WebChannelServer.removeClient clients c) := by
  constructor
  · intro h
    rw [removeClient_eq_erase]
    exact List.erase_of_not_mem h
  · intro hnd
    rw [removeClient_eq_erase, removeClient_eq_erase]
    exact List.erase_of_not_mem (hnd.not_mem_erase)

/-- Witness for claim C9 at concrete rosters. -/
theorem removeClient_idempotent_witness :
    WebChannelServer.removeClient [1, 2] 5 = [1, 2] ∧
    WebChannelServer.removeClient
        (WebChannelServer.removeClient [1, 2, 3] 2) 2 =
      WebChannelServer.removeClient [1, 2, 3] 2 :=
  ⟨(removeClient_idempotent [1, 2] 5).1 (by decide),
    (removeClient_idempotent [1, 2, 3] 2).2 (by decide)⟩

/-- A single movement step never commits a blocked position: the entity
either keeps its position or moves to a position the collision map reported
unblocked. -/
theorem moveEntity_pos_cases (map : ℚ → ℚ → Bool) (moveStep : ℚ)
    (e : Entity) :
    ((moveEntity map moveStep e).x = e.x ∧
      (moveEntity map moveStep e).y = e.y) ∨
    map (moveEntity map moveStep e).x (moveEntity map moveStep e).y =
      false := by
  simp only [moveEntity]
  set ny1 := if e.up = true then e.y - moveStep else e.y with hny1
  set ny := if e.down = true then ny1 + moveStep else ny1 with hny
  set nx1 := if e.left = true then e.x - moveStep else e.x with hnx1
  set nx := if e.right = true then nx1 + moveStep else nx1 with hnx
  by_cases hc : ((decide (e.x ≠ nx) || decide (e.y ≠ ny)) && !map nx ny)
      = true
  · rw [if_pos hc]
    right
    simp only [Bool.and_eq_true, Bool.not_eq_true'] at hc
    exact hc.2
  · rw [if_neg hc]
    left
    exact ⟨rfl, rfl⟩

/-- Claim C8: if every entity starts at an unblocked position, then after
any finite sequence of `moveEntities` steps (each with its own step size
and excluded entity) every entity is still at an unblocked position. -/
theorem moveEntities_never_blocked (map : ℚ → ℚ → Bool)
    (steps : List (ℚ × Option Entity)) (entities : List Entity)
    (h : ∀ e ∈ entities, map e.x e.y = false) :
    ∀ e ∈ steps.foldl
        (fun acc s => moveEntities map s.1 s.2 acc) entities,
      map e.x e.y = false := by
  induction steps generalizing entities with
  | nil => simpa using h
  | cons s steps ih =>
    simp only [List.foldl_cons]
    apply ih
    intro e he
    simp only [moveEntities, List.mem_map] at he
    obtain ⟨a, ha, rfl⟩ := he
    split
    · exact h a ha
    · rcases moveEntity_pos_cases map (MOVE_SPEED * s.1) a with hp | hp
      · rw [hp.1, hp.2]
        exact h a ha
      · exact hp

/-- Witness for claim C8: one step with an entity walking right from an
unblocked start toward a blocked cell; the entity that comes out of the
step still sits on an unblocked position. -/
theorem moveEntities_never_blocked_witness :
    (fun x _ => decide ((9 : ℚ) ≤ x))
        (([((1 : ℚ), (none : Option Entity))].foldl
            (fun acc s => moveEntities (fun x _ => decide ((9 : ℚ) ≤ x))
              s.1 s.2 acc)
            [⟨1, 1, 1, 1, true, false, false, true, false, false⟩]).getD 0
          ⟨0, 0, 0, 0, true, false, false, false, false, false⟩).x
        (([((1 : ℚ), (none : Option Entity))].foldl
            (fun acc s => moveEntities (fun x _ => decide ((9 : ℚ) ≤ x))
              s.1 s.2 acc)
            [⟨1, 1, 1, 1, true, false, false, true, false, false⟩]).getD 0
          ⟨0, 0, 0, 0, true, false, false, false, false, false⟩).y =
      false :=
  moveEntities_never_blocked (fun x _ => decide ((9 : ℚ) ≤ x))
    [((1 : ℚ), (none : Option Entity))]
    [⟨1, 1, 1, 1, true, false, false, true, false, false⟩]
    (by decide) _ (by decide)

/-- `moveEntity` with the candidate position written as current position
plus the summed per-direction displacements. -/
theorem moveEntity_char (map : ℚ → ℚ → Bool) (ms : ℚ) (e : Entity) :
    moveEntity map ms e =
      (let nx := e.x + ((if e.right then ms else 0) -
        (if e.left then ms else 0))
       let ny := e.y + ((if e.down then ms else 0) -
        (if e.up then ms else 0))
       let faceLeft := if nx < e.x then true
         else if e.x < nx then false else e.faceLeft
       let moving := decide (e.x ≠ nx) || decide (e.y ≠ ny)
       if moving && !(map nx ny) then
         { e with x := nx, y := ny, faceLeft := faceLeft, moving := moving }
       else { e with faceLeft := faceLeft, moving := moving }) := by
  have hx : (if e.right = true
        then (if e.left = true then e.x - ms else e.x) + ms
        else (if e.left = true then e.x - ms else e.x)) =
      e.x + ((if e.right = true then ms else 0) -
        (if e.left = true then ms else 0)) := by
    cases e.left <;> cases e.right <;> simp <;> ring
  have hy : (if e.down = true
        then (if e.up = true then e.y - ms else e.y) + ms
        else (if e.up = true then e.y - ms else e.y)) =
      e.y + ((if e.down = true then ms else 0) -
        (if e.up = true then ms else 0)) := by
    cases e.up <;> cases e.down <;> simp <;> ring
  simp only [moveEntity, hx, hy]


/-- Claim C7: one `moveEntities` step applies `moveEntity` with step
`MOVE_SPEED * stepSize` to every entity not excluded; and for a single
entity, the candidate position adds one fixed displacement per active
direction flag (diagonals summing both axes, no normalization), `moving` is
set exactly when the candidate differs from the current position,
`faceLeft` follows the sign of the horizontal displacement when it is
non-zero, the candidate is committed exactly when the entity is moving and
the collision map reports the candidate unblocked, and all other fields
are untouched.  `ms`, `dx`, `dy` and `m` name the step, the two
displacements and the moved entity. -/
theorem moveEntities_integrator_spec (map : ℚ → ℚ → Bool) (stepSize : ℚ)
    (exclude : Option Entity) (entities : List Entity) (e : Entity)
    (ms dx dy : ℚ) (m : Entity)
    (hms : ms = MOVE_SPEED * stepSize)
    (hdx : dx = (if e.right then ms else 0) - (if e.left then ms else 0))
    (hdy : dy = (if e.down then ms else 0) - (if e.up then ms else 0))
    (hm : m = moveEntity map ms e) :
    moveEntities map stepSize exclude entities =
      entities.map (fun en =>
        if exclude = some en then en
        else moveEntity map (MOVE_SPEED * stepSize) en) ∧
    (m.moving = true ↔ ¬(dx = 0 ∧ dy = 0)) ∧
    (0 < dx → m.faceLeft = false) ∧
    (dx < 0 → m.faceLeft = true) ∧
    (dx = 0 → m.faceLeft = e.faceLeft) ∧
    (¬(dx = 0 ∧ dy = 0) → map (e.x + dx) (e.y + dy) = false →
      m.x = e.x + dx ∧ m.y = e.y + dy) ∧
    (map (e.x + dx) (e.y + dy) = true → m.x = e.x ∧ m.y = e.y) ∧
    (dx = 0 ∧ dy = 0 → m.x = e.x ∧ m.y = e.y) ∧
    m.id = e.id ∧ m.type = e.type ∧ m.left = e.left ∧
    m.right = e.right ∧ m.up = e.up ∧ m.down = e.down := by
  subst hms hdx hdy hm
  refine ⟨rfl, ?_⟩
  set ms := MOVE_SPEED * stepSize with hms
  have hx : (if e.right = true then
        (if e.left = true then e.x - ms else e.x) + ms
        else (if e.left = true then e.x - ms else e.x)) =
      e.x + ((if e.right = true then ms else 0) -
        (if e.left = true then ms else 0)) := by
    cases e.left <;> cases e.right <;> simp <;> ring
  have hy : (if e.down = true then
        (if e.up = true then e.y - ms else e.y) + ms
        else (if e.up = true then e.y - ms else e.y)) =
      e.y + ((if e.down = true then ms else 0) -
        (if e.up = true then ms else 0)) := by
    cases e.up <;> cases e.down <;> simp <;> ring
  simp only [moveEntity, hx, hy]
  set dx := (if e.right = true then ms else 0) -
    (if e.left = true then ms else 0) with hdx
  set dy := (if e.down = true then ms else 0) -
    (if e.up = true then ms else 0) with hdy
  have hxne : (e.x ≠ e.x + dx) ↔ ¬dx = 0 := by
    constructor
    · intro h h0
      exact h (by rw [h0, add_zero])
    · intro h h0
      apply h
      linarith [h0]
  have hyne : (e.y ≠ e.y + dy) ↔ ¬dy = 0 := by
    constructor
    · intro h h0
      exact h (by rw [h0, add_zero])
    · intro h h0
      apply h
      linarith [h0]
  have hltx : (e.x + dx < e.x) ↔ dx < 0 := by
    constructor <;> intro h <;> linarith
  have hltx' : (e.x < e.x + dx) ↔ 0 < dx := by
    constructor <;> intro h <;> linarith
  by_cases hmv : dx = 0 ∧ dy = 0
  · have hcond : ((decide (e.x ≠ e.x + dx) || decide (e.y ≠ e.y + dy)) &&
        !map (e.x + dx) (e.y + dy)) = false := by
      have h1 : (decide (e.x ≠ e.x + dx)) = false := by
        simp [hxne, hmv.1]
      have h2 : (decide (e.y ≠ e.y + dy)) = false := by
        simp [hyne, hmv.2]
      rw [h1, h2]
      rfl
    rw [hcond, if_neg Bool.false_ne_true]
    refine ⟨?_, ?_, ?_, ?_, ?_, ?_, ?_, rfl, rfl, rfl, rfl, rfl, rfl⟩
    · simp [hxne, hyne, Decidable.not_and_iff_or_not, hmv.1, hmv.2]
    · intro h
      rw [hmv.1] at h
      exact absurd h (lt_irrefl 0)
    · intro h
      rw [hmv.1] at h
      exact absurd h (lt_irrefl 0)
    · intro _
      show (if e.x + dx < e.x then true
        else if e.x < e.x + dx then false else e.faceLeft) = e.faceLeft
      rw [if_neg (by rw [hltx, hmv.1]; exact lt_irrefl 0),
        if_neg (by rw [hltx', hmv.1]; exact lt_irrefl 0)]
    · intro h _
      exact absurd hmv h
    · intro _
      exact ⟨rfl, rfl⟩
    · intro _
      exact ⟨rfl, rfl⟩
  · have hmoving : (decide (e.x ≠ e.x + dx) || decide (e.y ≠ e.y + dy)) =
        true := by
      rcases Decidable.not_and_iff_or_not.mp hmv with h | h
      · simp [hxne.mpr h]
      · simp [hyne.mpr h]
    by_cases hb : map (e.x + dx) (e.y + dy) = true
    · have hcond : ((decide (e.x ≠ e.x + dx) || decide (e.y ≠ e.y + dy)) &&
          !map (e.x + dx) (e.y + dy)) = false := by
        rw [hmoving, hb]
        rfl
      rw [hcond, if_neg Bool.false_ne_true]
      refine ⟨?_, ?_, ?_, ?_, ?_, ?_, ?_, rfl, rfl, rfl, rfl, rfl, rfl⟩
      · show (decide (e.x ≠ e.x + dx) || decide (e.y ≠ e.y + dy)) = true ↔
          ¬(dx = 0 ∧ dy = 0)
        rw [hmoving]
        simp [hmv]
      · intro h
        show (if e.x + dx < e.x then true
          else if e.x < e.x + dx then false else e.faceLeft) = false
        rw [if_neg (by rw [hltx]; exact not_lt.mpr (le_of_lt h)),
          if_pos (hltx'.mpr h)]
      · intro h
        show (if e.x + dx < e.x then true
          else if e.x < e.x + dx then false else e.faceLeft) = true
        rw [if_pos (hltx.mpr h)]
      · intro h
        show (if e.x + dx < e.x then true
          else if e.x < e.x + dx then false else e.faceLeft) = e.faceLeft
        rw [if_neg (by rw [hltx, h]; exact lt_irrefl 0),
          if_neg (by rw [hltx', h]; exact lt_irrefl 0)]
      · intro _ hmb
        rw [hmb] at hb
        cases hb
      · intro _
        exact ⟨rfl, rfl⟩
      · intro h
        exact absurd h hmv
    · have hb' : map (e.x + dx) (e.y + dy) = false := by
        cases h : map (e.x + dx) (e.y + dy)
        · rfl
        · exact absurd h hb
      have hcond : ((decide (e.x ≠ e.x + dx) || decide (e.y ≠ e.y + dy)) &&
          !map (e.x + dx) (e.y + dy)) = true := by
        rw [hmoving, hb']
        rfl
      rw [hcond, if_pos rfl]
      refine ⟨?_, ?_, ?_, ?_, ?_, ?_, ?_, rfl, rfl, rfl, rfl, rfl, rfl⟩
      · show (decide (e.x ≠ e.x + dx) || decide (e.y ≠ e.y + dy)) = true ↔
          ¬(dx = 0 ∧ dy = 0)
        rw [hmoving]
        simp [hmv]
      · intro h
        show (if e.x + dx < e.x then true
          else if e.x < e.x + dx then false else e.faceLeft) = false
        rw [if_neg (by rw [hltx]; exact not_lt.mpr (le_of_lt h)),
          if_pos (hltx'.mpr h)]
      · intro h
        show (if e.x + dx < e.x then true
          else if e.x < e.x + dx then false else e.faceLeft) = true
        rw [if_pos (hltx.mpr h)]
      · intro h
        show (if e.x + dx < e.x then true
          else if e.x < e.x + dx then false else e.faceLeft) = e.faceLeft
        rw [if_neg (by rw [hltx, h]; exact lt_irrefl 0),
          if_neg (by rw [hltx', h]; exact lt_irrefl 0)]
      · intro _ _
        exact ⟨rfl, rfl⟩
      · intro h
        rw [h] at hb'
        cases hb'
      · intro h
        exact absurd h hmv

/-- Witness for claim C7: an entity moving diagonally (right+down) with the
client step commits position (4, 4) from the origin and faces right. -/
theorem moveEntities_integrator_spec_witness :
    (moveEntity (fun _ _ => false) 4
        ⟨1, 0, 0, 1, true, false, false, true, false, true⟩).x = 0 + 4 ∧
    (moveEntity (fun _ _ => false) 4
        ⟨1, 0, 0, 1, true, false, false, true, false, true⟩).faceLeft =
      false := by
  have h := moveEntities_integrator_spec (fun _ _ => false) (1 / 2) none []
    ⟨1, 0, 0, 1, true, false, false, true, false, true⟩ 4 4 4
    (moveEntity (fun _ _ => false) 4
      ⟨1, 0, 0, 1, true, false, false, true, false, true⟩)
    (by decide) (by decide) (by decide) rfl
  exact ⟨(h.2.2.2.2.2.1 (by decide) rfl).1, h.2.2.1 (by decide)⟩

/-- Claim C6: `clientStateReceived` is all-or-nothing.  A report from a
client with no bound entity leaves the server world unchanged; a report
whose decoded position is blocked leaves it unchanged; otherwise it
overwrites exactly the bound entity with the decoded position and input
flags. -/
theorem clientStateReceived_validation_atomic (map : ℚ → ℚ → Bool)
    (clientId : Nat) (buffer : List Nat) (w : ServerWorld)
    (hlen : 3 ≤ buffer.length) :
    (w.clientToEntity.lookup clientId = none →
      ServerWorld.clientStateReceived map clientId buffer w = w) ∧
    (map (buffer.getD 0 0) (buffer.getD 1 0) = true →
      ServerWorld.clientStateReceived map clientId buffer w = w) ∧
    (∀ eid entity, w.clientToEntity.lookup clientId = some eid →
      w.entities.find? (fun e => e.id == eid) = some entity →
      map (buffer.getD 0 0) (buffer.getD 1 0) = false →
      ServerWorld.clientStateReceived map clientId buffer w =
        { w with entities := w.entities.map (fun e =>
            if e.id == eid then
              entity.updateState (buffer.getD 0 0) (buffer.getD 1 0)
                entity.type (hasBit (buffer.getD 2 0) LEFT)
                (hasBit (buffer.getD 2 0) RIGHT)
                (hasBit (buffer.getD 2 0) UP)
                (hasBit (buffer.getD 2 0) DOWN)
            else e) }) := by
  refine ⟨?_, ?_, ?_⟩
  · intro h
    simp only [ServerWorld.clientStateReceived, h]
  · intro h
    cases hl : w.clientToEntity.lookup clientId with
    | none => simp only [ServerWorld.clientStateReceived, hl]
    | some eid =>
      cases hf : w.entities.find? (fun e => e.id == eid) with
      | none => simp only [ServerWorld.clientStateReceived, hl, hf]
      | some entity =>
        simp only [ServerWorld.clientStateReceived, hl, hf, h,
          Bool.not_true, Bool.false_eq_true, if_false]
  · intro eid entity hl hf hb
    simp only [ServerWorld.clientStateReceived, hl, hf, hb,
      Bool.not_false, if_true]

/-- Witness for claim C6: a report at a blocked position leaves the server
world (one entity, one binding) unchanged. -/
theorem clientStateReceived_validation_atomic_witness :
    ServerWorld.clientStateReceived (fun _ _ => true) 1 [5, 5, 0]
        { entities := [{ id := 3, x := 100, y := 100, type := 2 }],
          clientToEntity := [(1, 3)] } =
      { entities := [{ id := 3, x := 100, y := 100, type := 2 }],
        clientToEntity := [(1, 3)] } :=
  (clientStateReceived_validation_atomic (fun _ _ => true) 1 [5, 5, 0]
    { entities := [{ id := 3, x := 100, y := 100, type := 2 }],
      clientToEntity := [(1, 3)] } (by decide)).2.1 rfl

/-- Claim C10: an accepted client state report changes only the bound
entity's position and input flags; its appearance type, `faceLeft` and
`moving` are unchanged, every other entity is untouched, and the rest of
the server world (bindings, id counter, sequence number) is untouched. -/
theorem clientStateReceived_frame (map : ℚ → ℚ → Bool) (clientId : Nat)
    (buffer : List Nat) (w : ServerWorld) (eid : Nat) (entity : Entity)
    (hlen : 3 ≤ buffer.length)
    (hnd : (w.entities.map Entity.id).Nodup)
    (hl : w.clientToEntity.lookup clientId = some eid)
    (hf : w.entities.find? (fun e => e.id == eid) = some entity)
    (hok : map (buffer.getD 0 0) (buffer.getD 1 0) = false) :
    (ServerWorld.clientStateReceived map clientId buffer w).clientToEntity =
      w.clientToEntity ∧
    (ServerWorld.clientStateReceived map clientId buffer w).nextEntityId =
      w.nextEntityId ∧
    (ServerWorld.clientStateReceived map clientId buffer w).sequenceNumber =
      w.sequenceNumber ∧
    (ServerWorld.clientStateReceived map clientId buffer w).entities =
      w.entities.map (fun e =>
        if e.id == eid then
          { e with x := (buffer.getD 0 0 : ℚ), y := (buffer.getD 1 0 : ℚ),
                   left := hasBit (buffer.getD 2 0) LEFT,
                   right := hasBit (buffer.getD 2 0) RIGHT,
                   up := hasBit (buffer.getD 2 0) UP,
                   down := hasBit (buffer.getD 2 0) DOWN }
        else e) ∧
    ∀ f ∈ (ServerWorld.clientStateReceived map clientId buffer w).entities,
      ∃ g ∈ w.entities, f.id = g.id ∧ f.type = g.type ∧
        f.faceLeft = g.faceLeft ∧ f.moving = g.moving := by
  have hmain : ServerWorld.clientStateReceived map clientId buffer w =
      { w with entities := w.entities.map (fun e =>
          if e.id == eid then
            entity.updateState (buffer.getD 0 0) (buffer.getD 1 0)
              entity.type (hasBit (buffer.getD 2 0) LEFT)
              (hasBit (buffer.getD 2 0) RIGHT)
              (hasBit (buffer.getD 2 0) UP)
              (hasBit (buffer.getD 2 0) DOWN)
          else e) } := by
    simp only [ServerWorld.clientStateReceived, hl, hf, hok,
      Bool.not_false, if_true]
  have hent : ∀ e ∈ w.entities, e.id = eid → e = entity := by
    intro e he heq
    have hmem := List.mem_of_find?_eq_some hf
    have hid : entity.id = eid := by
      have := List.find?_some hf
      simpa using this
    exact List.inj_on_of_nodup_map hnd he hmem (by rw [heq, hid])
  have hmaps : w.entities.map (fun e =>
      if e.id == eid then
        entity.updateState (buffer.getD 0 0) (buffer.getD 1 0)
          entity.type (hasBit (buffer.getD 2 0) LEFT)
          (hasBit (buffer.getD 2 0) RIGHT)
          (hasBit (buffer.getD 2 0) UP)
          (hasBit (buffer.getD 2 0) DOWN)
      else e) =
      w.entities.map (fun e =>
        if e.id == eid then
          { e with x := (buffer.getD 0 0 : ℚ), y := (buffer.getD 1 0 : ℚ),
                   left := hasBit (buffer.getD 2 0) LEFT,
                   right := hasBit (buffer.getD 2 0) RIGHT,
                   up := hasBit (buffer.getD 2 0) UP,
                   down := hasBit (buffer.getD 2 0) DOWN }
        else e) := by
    apply List.map_congr_left
    intro e he
    by_cases hbe : e.id = eid
    · rw [if_pos (by simpa using hbe), if_pos (by simpa using hbe)]
      rw [hent e he hbe]
      rfl
    · rw [if_neg (by simpa using hbe), if_neg (by simpa using hbe)]
  refine ⟨by rw [hmain], by rw [hmain], by rw [hmain], ?_, ?_⟩
  · rw [hmain]
    exact hmaps
  · intro f hfm
    rw [hmain] at hfm
    simp only [List.mem_map] at hfm
    obtain ⟨g, hg, rfl⟩ := hfm
    refine ⟨g, hg, ?_⟩
    by_cases hbe : g.id = eid
    · rw [if_pos (by simpa using hbe), hent g hg hbe]
      exact ⟨rfl, rfl, rfl, rfl⟩
    · rw [if_neg (by simpa using hbe)]
      exact ⟨rfl, rfl, rfl, rfl⟩

/-- Witness for claim C10: an accepted report moves the bound entity and
flips its input flags but keeps its type; the other entity is untouched. -/
theorem clientStateReceived_frame_witness :
    (ServerWorld.clientStateReceived (fun _ _ => false) 1 [50, 60, 3]
        { entities := [{ id := 3, x := 100, y := 100, type := 2 },
            { id := 4, x := 10, y := 10, type := 5 }],
          clientToEntity := [(1, 3)] }).entities =
      [{ id := 3, x := 50, y := 60, type := 2, faceLeft := true,
         moving := false, left := true, right := true, up := false,
         down := false },
       { id := 4, x := 10, y := 10, type := 5 }] := by
  have h := clientStateReceived_frame (fun _ _ => false) 1 [50, 60, 3]
    { entities := [{ id := 3, x := 100, y := 100, type := 2 },
        { id := 4, x := 10, y := 10, type := 5 }],
      clientToEntity := [(1, 3)] } 3
    { id := 3, x := 100, y := 100, type := 2 }
    (by decide) (by decide) (by decide) (by decide) rfl
  rw [h.2.2.2.1]
  decide

/-- The per-entity effect of one reconciliation pass, read off the spec: an
existing entity takes the matching record's fields unless it is the
locally-controlled one; an unmatched entity is left alone. -/
def reconcileOld (myId : Nat) (rs : List SnapRecord) (e : Entity) :
    Entity :=
  match rs.find? (fun r => r.id == e.id) with
  | some r => if e.id = myId then e else recordUpdate e r
  | none => e

/-- The entities freshly created by one reconciliation pass: one per record
whose id matches no existing entity, applied verbatim (also for the local
id). -/
def reconcileNew (es : List Entity) (rs : List SnapRecord) : List Entity :=
  (rs.filter (fun r => es.find? (fun e => e.id == r.id) == none)).map
    (fun r => recordUpdate { id := r.id, x := 0, y := 0, type := 0 } r)

/-- `recordUpdate` keeps the entity id. -/
theorem recordUpdate_id (e : Entity) (r : SnapRecord) :
    (recordUpdate e r).id = e.id := rfl

/-- Finding an entity by id fails exactly when the id is absent. -/
theorem find_entity_id_none_iff (es : List Entity) (q : Nat) :
    es.find? (fun e => e.id == q) = none ↔ q ∉ es.map Entity.id := by
  constructor
  · intro h hq
    rw [List.mem_map] at hq
    obtain ⟨e, he, heq⟩ := hq
    have hne := List.find?_eq_none.mp h e he
    rw [beq_iff_eq] at hne
    exact hne heq
  · intro h
    apply List.find?_eq_none.mpr
    intro e he
    rw [beq_iff_eq]
    intro heq
    exact h (List.mem_map.mpr ⟨e, he, heq⟩)

/-- Replacing the entity carrying a record's id keeps the id list. -/
theorem map_id_of_replace (es : List Entity) (r : SnapRecord) (a : Entity)
    (ha : a.id = r.id) :
    ((es.map (fun e => if e.id == r.id then recordUpdate a r else e)).map
      Entity.id) = es.map Entity.id := by
  rw [List.map_map]
  apply List.map_congr_left
  intro e he
  show (if e.id == r.id then recordUpdate a r else e).id = e.id
  by_cases h : e.id = r.id
  · rw [if_pos (by simpa using h), recordUpdate_id, ha, h]
  · rw [if_neg (by simpa using h)]

/-- `reconcileOld` when a record matches the entity. -/
theorem reconcileOld_eq_some {myId : Nat} {rs : List SnapRecord}
    {e : Entity} {r : SnapRecord}
    (h : rs.find? (fun r' => r'.id == e.id) = some r) :
    reconcileOld myId rs e = if e.id = myId then e else recordUpdate e r := by
  unfold reconcileOld
  rw [h]

/-- `reconcileOld` when no record matches the entity. -/
theorem reconcileOld_eq_none {myId : Nat} {rs : List SnapRecord} {e : Entity}
    (h : rs.find? (fun r' => r'.id == e.id) = none) :
    reconcileOld myId rs e = e := by
  unfold reconcileOld
  rw [h]

/-- Finding a record by id at the head of the record list. -/
theorem find_record_cons_eq {r : SnapRecord} {rs : List SnapRecord} {q : Nat}
    (h : r.id = q) :
    (r :: rs).find? (fun r' => r'.id == q) = some r :=
  List.find?_cons_of_pos _ (by simpa using h)

/-- Finding a record by id skips a head with a different id. -/
theorem find_record_cons_ne {r : SnapRecord} {rs : List SnapRecord} {q : Nat}
    (h : r.id ≠ q) :
    (r :: rs).find? (fun r' => r'.id == q) =
      rs.find? (fun r' => r'.id == q) :=
  List.find?_cons_of_neg _ (by simpa using h)

/-- Finding a record by an id not among the records fails. -/
theorem find_record_none {rs : List SnapRecord} {q : Nat}
    (h : q ∉ rs.map SnapRecord.id) :
    rs.find? (fun r' => r'.id == q) = none := by
  apply List.find?_eq_none.mpr
  intro r' hr'
  rw [beq_iff_eq]
  intro heq
  exact h (List.mem_map.mpr ⟨r', hr', heq⟩)

/-- A record whose id already names an entity creates nothing. -/
theorem reconcileNew_cons_found {es : List Entity} {r : SnapRecord}
    {rs : List SnapRecord} {a : Entity}
    (h : es.find? (fun e => e.id == r.id) = some a) :
    reconcileNew es (r :: rs) = reconcileNew es rs := by
  unfold reconcileNew
  rw [List.filter_cons, h]
  rfl

/-- A record whose id names no entity creates one, applied verbatim. -/
theorem reconcileNew_cons_newid {es : List Entity} {r : SnapRecord}
    {rs : List SnapRecord}
    (h : es.find? (fun e => e.id == r.id) = none) :
    reconcileNew es (r :: rs) =
      recordUpdate { id := r.id, x := 0, y := 0, type := 0 } r ::
        reconcileNew es rs := by
  unfold reconcileNew
  rw [List.filter_cons, h]
  rfl

/-- `reconcileNew` only looks at the entity ids. -/
theorem reconcileNew_congr {es es' : List Entity} (rs : List SnapRecord)
    (h : es.map Entity.id = es'.map Entity.id) :
    reconcileNew es rs = reconcileNew es' rs := by
  unfold reconcileNew
  congr 1
  apply List.filter_congr
  intro r _
  have hiff : (es.find? (fun e => e.id == r.id) = none) ↔
      (es'.find? (fun e => e.id == r.id) = none) := by
    rw [find_entity_id_none_iff, find_entity_id_none_iff, h]
  cases hx : es.find? (fun e => e.id == r.id) with
  | none =>
    rw [hiff.mp hx]
  | some a =>
    cases hy : es'.find? (fun e => e.id == r.id) with
    | none =>
      rw [hiff.mpr hy] at hx
      cases hx
    | some b => rfl

/-- Entities with equal ids are equal on a duplicate-free world. -/
theorem entity_eq_of_id {es : List Entity}
    (hes : (es.map Entity.id).Nodup) {a b : Entity}
    (ha : a ∈ es) (hb : b ∈ es) (h : a.id = b.id) : a = b :=
  List.inj_on_of_nodup_map hes ha hb h

/-- Appending an entity with a fresh id does not change which of the given
record ids find an entity. -/
theorem reconcileNew_append_fresh {es : List Entity} {rs : List SnapRecord}
    {nw : Entity} (hid : ∀ r' ∈ rs, nw.id ≠ r'.id) :
    reconcileNew (es ++ [nw]) rs = reconcileNew es rs := by
  unfold reconcileNew
  congr 1
  apply List.filter_congr
  intro r' hr'
  have hfind : (es ++ [nw]).find? (fun e => e.id == r'.id) =
      es.find? (fun e => e.id == r'.id) := by
    rw [List.find?_append]
    cases hx : es.find? (fun e => e.id == r'.id) with
    | some b => rfl
    | none =>
      have : [nw].find? (fun e => e.id == r'.id) = none := by
        rw [List.find?_singleton]
        simp only [beq_iff_eq]
        rw [if_neg (by simpa using hid r' hr')]
      rw [this]
      rfl
  rw [hfind]

/-- Claim C4: applying an accepted snapshot's records (with the unique ids
the server guarantees) overwrites every matching entity's position, type
and input flags with the record's values, except that a record for the
locally-controlled id whose entity already existed leaves that entity
completely unchanged; records whose id names no existing entity append a
fresh entity with the record applied verbatim — also when that id is the
local one. -/
theorem applyRecords_preserves_prediction (myId : Nat) (es : List Entity)
    (rs : List SnapRecord)
    (hes : (es.map Entity.id).Nodup)
    (hrs : (rs.map SnapRecord.id).Nodup) :
    applyRecords myId es rs =
      es.map (reconcileOld myId rs) ++ reconcileNew es rs := by
  revert hrs
  induction rs generalizing es hes with
  | nil =>
    intro _
    rw [show applyRecords myId es [] = es from rfl]
    have h1 : es.map (reconcileOld myId []) = es := by
      have h0 : es.map (reconcileOld myId []) = es.map id :=
        List.map_congr_left (fun e _ => rfl)
      rw [h0, List.map_id]
    rw [h1, show reconcileNew es [] = [] from rfl, List.append_nil]
  | cons r rs ih =>
    intro hrs
    rw [List.map_cons, List.nodup_cons] at hrs
    obtain ⟨hrn, hrs'⟩ := hrs
    rw [show applyRecords myId es (r :: rs) =
      applyRecords myId (applyRecord myId es r) rs from rfl]
    cases hfind : es.find? (fun e => e.id == r.id) with
    | some a =>
      have hamem : a ∈ es := List.mem_of_find?_eq_some hfind
      have haid : a.id = r.id := by
        have h := List.find?_some hfind
        rwa [beq_iff_eq] at h
      by_cases hmy : r.id = myId
      · -- the record targets the already-existing local entity: skipped
        have hloc : es.find? (fun e => e.id == myId) = some a := by
          rw [← hmy]
          exact hfind
        have hskip : applyRecord myId es r = es := by
          unfold applyRecord
          rw [hfind, hloc]
          simp
        rw [hskip, ih es hes hrs']
        have holds : es.map (reconcileOld myId rs) =
            es.map (reconcileOld myId (r :: rs)) := by
          apply List.map_congr_left
          intro e he
          by_cases hid : r.id = e.id
          · have hmyid : e.id = myId := by rw [← hid, hmy]
            rw [reconcileOld_eq_some (find_record_cons_eq hid),
              if_pos hmyid]
            have hnone : rs.find? (fun r' => r'.id == e.id) = none :=
              find_record_none (by rw [← hid]; exact hrn)
            rw [reconcileOld_eq_none hnone]
          · unfold reconcileOld
            rw [find_record_cons_ne hid]
        rw [holds, reconcileNew_cons_found hfind]
      · -- the record targets an existing non-local entity: overwritten
        have hne : es.find? (fun e => e.id == myId) ≠ some a := by
          intro hc
          have h := List.find?_some hc
          rw [beq_iff_eq] at h
          exact hmy (by rw [← haid, h])
        have happ : applyRecord myId es r =
            es.map (fun e => if e.id == r.id then recordUpdate a r
              else e) := by
          unfold applyRecord
          rw [hfind]
          exact if_pos hne
        have hids : ((es.map (fun e => if e.id == r.id then recordUpdate a r
            else e)).map Entity.id) = es.map Entity.id :=
          map_id_of_replace es r a haid
        rw [happ, ih _ (by rw [hids]; exact hes) hrs']
        have hnews : reconcileNew (es.map (fun e =>
            if e.id == r.id then recordUpdate a r else e)) rs =
            reconcileNew es rs :=
          reconcileNew_congr rs hids
        have hnews2 : reconcileNew es (r :: rs) = reconcileNew es rs :=
          reconcileNew_cons_found hfind
        have holds : (es.map (fun e => if e.id == r.id then recordUpdate a r
            else e)).map (reconcileOld myId rs) =
            es.map (reconcileOld myId (r :: rs)) := by
          rw [List.map_map]
          apply List.map_congr_left
          intro e he
          show reconcileOld myId rs
            (if e.id == r.id then recordUpdate a r else e) =
            reconcileOld myId (r :: rs) e
          by_cases hid : e.id = r.id
          · have hea : e = a := entity_eq_of_id hes he hamem
              (hid.trans haid.symm)
            rw [if_pos (by simpa using hid)]
            have hnone : rs.find? (fun r' =>
                r'.id == (recordUpdate a r).id) = none :=
              find_record_none (by rw [recordUpdate_id, haid]; exact hrn)
            rw [reconcileOld_eq_none hnone,
              reconcileOld_eq_some (find_record_cons_eq hid.symm),
              if_neg (fun hc => hmy (by rw [← hid, hc]))]
            rw [hea]
          · rw [if_neg (by simpa using hid)]
            unfold reconcileOld
            rw [find_record_cons_ne (fun hc => hid hc.symm)]
        rw [hnews, hnews2, holds]
    | none =>
      have hnotin : r.id ∉ es.map Entity.id :=
        (find_entity_id_none_iff es r.id).mp hfind
      have happ : applyRecord myId es r =
          es ++ [recordUpdate { id := r.id, x := 0, y := 0, type := 0 }
            r] := by
        unfold applyRecord
        rw [hfind]
      have hids : ((es ++ [recordUpdate
          { id := r.id, x := 0, y := 0, type := 0 } r]).map Entity.id) =
          es.map Entity.id ++ [r.id] := by
        rw [List.map_append]
        rfl
      have hes' : (((es ++ [recordUpdate
          { id := r.id, x := 0, y := 0, type := 0 } r]).map Entity.id)).Nodup := by
        rw [hids]
        rw [List.nodup_append]
        refine ⟨hes, List.nodup_singleton _, ?_⟩
        intro q hq hq'
        rw [List.mem_singleton] at hq'
        rw [hq'] at hq
        exact hnotin hq
      rw [happ, ih _ hes' hrs']
      have hnw : reconcileOld myId rs
          (recordUpdate { id := r.id, x := 0, y := 0, type := 0 } r) =
          recordUpdate { id := r.id, x := 0, y := 0, type := 0 } r :=
        reconcileOld_eq_none
          (find_record_none (by rw [recordUpdate_id]; exact hrn))
      have holds : es.map (reconcileOld myId rs) =
          es.map (reconcileOld myId (r :: rs)) := by
        apply List.map_congr_left
        intro e he
        have hid : r.id ≠ e.id := by
          intro hc
          exact hnotin (by rw [hc]; exact List.mem_map.mpr ⟨e, he, rfl⟩)
        unfold reconcileOld
        rw [find_record_cons_ne hid]
      have hnews : reconcileNew (es ++ [recordUpdate
          { id := r.id, x := 0, y := 0, type := 0 } r]) rs =
          reconcileNew es rs :=
        reconcileNew_append_fresh (by
          intro r' hr' hc
          have hcc : r.id = r'.id := hc
          exact hrn (by rw [hcc]; exact List.mem_map.mpr ⟨r', hr', rfl⟩))
      rw [List.map_append, hnews, holds,
        reconcileNew_cons_newid hfind]
      rw [List.append_assoc, List.map_singleton, hnw]
      rfl

/-- Witness for claim C4: the client's own pre-existing entity (id 7) keeps
its predicted position, another entity (id 3) is overwritten verbatim, and
a fresh id (9) is created and applied verbatim. -/
theorem applyRecords_preserves_prediction_witness :
    applyRecords 7
        [{ id := 7, x := 120, y := 100, type := 2 },
         { id := 3, x := 10, y := 10, type := 1 }]
        [⟨7, 100, 100, 2, 0⟩, ⟨3, 50, 50, 1, 3⟩, ⟨9, 60, 60, 4, 0⟩] =
      [{ id := 7, x := 120, y := 100, type := 2 },
       { id := 3, x := 50, y := 50, type := 1, faceLeft := true,
         moving := false, left := true, right := true, up := false,
         down := false },
       { id := 9, x := 60, y := 60, type := 4, faceLeft := true,
         moving := false, left := false, right := false, up := false,
         down := false }] := by
  have h := applyRecords_preserves_prediction 7
    [{ id := 7, x := 120, y := 100, type := 2 },
     { id := 3, x := 10, y := 10, type := 1 }]
    [⟨7, 100, 100, 2, 0⟩, ⟨3, 50, 50, 1, 3⟩, ⟨9, 60, 60, 4, 0⟩]
    (by decide) (by decide)
  rw [h]
  decide
